import Mathlib

/-!
Shallow embedding of `src/bingscraper.py` (a Bing image bulk downloader) and
proofs about it.  Python strings are modelled as `List Char`, Python bytes as
`List Nat`, Python `set` as a duplicate-free `List`, and Python `dict` as an
insertion-ordered association list.  External stdlib primitives with no design
content (`hashlib.md5`, `imghdr.what`, the network) are oracle parameters of
the embedded functions.
-/

namespace Bingscraper

/-- Python strings are modelled as lists of characters. -/
abbrev PyStr := List Char

/-- Python bytes objects are modelled as lists of naturals. -/
abbrev PyBytes := List Nat

/-- Characters removed by Python `str.strip()` with no argument (ASCII part). -/
def isPySpace (c : Char) : Bool :=
  c = ' ' || c = '\t' || c = '\n' || c = '\r' || c = '\x0b' || c = '\x0c'

/-- Model of Python `str.strip()`: drop leading and trailing whitespace. -/
def pyStrip (s : PyStr) : PyStr :=
  ((s.dropWhile isPySpace).reverse.dropWhile isPySpace).reverse

/-- Model of Python `str.split(sep)` for a one-character separator: split at
every occurrence of `c`, keeping empty fields. -/
def splitChar (c : Char) : PyStr → List PyStr
  | [] => [[]]
  | a :: as =>
    match splitChar c as with
    | [] => [[]]
    | r :: rs => if a = c then [] :: r :: rs else (a :: r) :: rs

/-- Model of iterating over the lines of a Python text file: the content is
split at newlines, and a trailing newline does not produce an extra empty
line (an empty file yields no lines).  Each produced line is returned without
its terminating newline, which the source strips anyway. -/
def pyLines (s : PyStr) : List PyStr :=
  if (splitChar '\n' s).getLast? = some [] then (splitChar '\n' s).dropLast
  else splitChar '\n' s

/-- Model of Python `"\n".join(ls)`. -/
def joinNL : List PyStr → PyStr
  | [] => []
  | [x] => x
  | x :: y :: ys => x ++ '\n' :: joinNL (y :: ys)

/-- Concatenation of a list of strings (sequential `write` calls). -/
def listJoin : List PyStr → PyStr
  | [] => []
  | x :: xs => x ++ listJoin xs

/-- Model of Python `set.add`: insert an element unless already present. -/
def setInsert (u : PyStr) (s : List PyStr) : List PyStr :=
  if u ∈ s then s else u :: s

/-- Model of Python `d[k]` lookup on an insertion-ordered association list. -/
def dictLookup (d : List (PyStr × PyStr)) (k : PyStr) : Option PyStr :=
  match d with
  | [] => none
  | (k0, v0) :: rest => if k = k0 then some v0 else dictLookup rest k

/-- Model of Python `d[k] = v`: replace in place if the key is present,
otherwise append (Python dicts preserve insertion order). -/
def dictInsert (d : List (PyStr × PyStr)) (k v : PyStr) : List (PyStr × PyStr) :=
  match d with
  | [] => [(k, v)]
  | (k0, v0) :: rest =>
    if k = k0 then (k0, v) :: rest else (k0, v0) :: dictInsert rest k v

/-- Embedding of the `DownloadTracker` class state: `tried_urls` is a Python
set (duplicate-free list, membership is what matters), `image_md5s` a Python
dict from content hash to the first filename saved under that hash. -/
structure DownloadTracker where
  tried_urls : List PyStr
  image_md5s : List (PyStr × PyStr)
  count : Nat
deriving DecidableEq

/-- The tracker built by `DownloadTracker.__init__`: empty collections. -/
def DownloadTracker.init : DownloadTracker := ⟨[], [], 0⟩

/-- Embedding of `DownloadTracker._get_tried_urls`.  The filesystem is a
parameter: `none` models a missing `tried_urls.txt` (the `FileNotFoundError`
branch yields an empty set), `some contents` the file's text.  The source
builds `set(line.strip() for line in url_file)`; we return the stripped lines
(set semantics are imposed by stating results up to membership). -/
def get_tried_urls (file : Option PyStr) : List PyStr :=
  match file with
  | none => []
  | some contents => (pyLines contents).map pyStrip

/-- Parse of one line of `image_md5s.tsv` in `DownloadTracker._get_image_md5s`:
`md5, name = line.strip().split('\t')` requires exactly two tab-separated
fields; anything else raises `ValueError` (modelled as `none`). -/
def parseMd5Line (line : PyStr) : Option (PyStr × PyStr) :=
  match splitChar '\t' (pyStrip line) with
  | [k, v] => some (k, v)
  | _ => none

/-- The line loop of `DownloadTracker._get_image_md5s`: each parsed line is
inserted into the accumulating dict; a malformed line raises. -/
def parseMd5Lines (acc : List (PyStr × PyStr)) : List PyStr → Option (List (PyStr × PyStr))
  | [] => some acc
  | line :: rest =>
    match parseMd5Line line with
    | none => none
    | some kv => parseMd5Lines (dictInsert acc kv.1 kv.2) rest

/-- Embedding of `DownloadTracker._get_image_md5s`.  A missing file yields an
empty dict; a malformed line raises (the `try` only catches
`FileNotFoundError`), modelled as `none`. -/
def get_image_md5s (file : Option PyStr) : Option (List (PyStr × PyStr)) :=
  match file with
  | none => some []
  | some contents => parseMd5Lines [] (pyLines contents)

/-- Embedding of `DownloadTracker.log` serialization: the pair of file
contents written to `tried_urls.txt` (URLs sorted lexicographically and
newline-joined) and to `image_md5s.tsv` (one hash, tab, filename, newline
per dict entry, in dict order). -/
def DownloadTracker.log (t : DownloadTracker) : PyStr × PyStr :=
  (joinNL (List.insertionSort (· ≤ ·) t.tried_urls),
   listJoin (t.image_md5s.map (fun p => p.1 ++ '\t' :: (p.2 ++ ['\n']))))

/-- Take the characters of `l` strictly before the first occurrence of `c`. -/
def takeUntil (c : Char) (l : PyStr) : PyStr := l.takeWhile (fun a => a ≠ c)

/-- Model of `urllib.parse.urlsplit(url).path`: drop a valid `scheme:`, then a
`//netloc` component, then cut the remainder at `?` or `#`. -/
def urlsplitPath (url : PyStr) : PyStr :=
  let noFrag := takeUntil '#' url
  let schemePart := noFrag.takeWhile (fun c => c.isAlphanum || c = '+' || c = '-' || c = '.')
  let rest :=
    match noFrag.drop schemePart.length with
    | ':' :: r =>
      if schemePart ≠ [] && (schemePart.headD ' ').isAlpha then r else noFrag
    | _ => noFrag
  let afterNetloc :=
    match rest with
    | '/' :: '/' :: r => r.dropWhile (fun c => c ≠ '/' && c ≠ '?')
    | _ => rest
  takeUntil '?' afterNetloc

/-- Model of `posixpath.basename`: the part after the last slash. -/
def posixBasename (p : PyStr) : PyStr :=
  (p.reverse.takeWhile (fun c => c ≠ '/')).reverse

/-- The display filename computed by `download_image` (lines 83 and 84 of the
source): basename of the URL path, with anything from `?` on removed. -/
def urlFilename (url : PyStr) : PyStr :=
  takeUntil '?' (posixBasename (urlsplitPath url))

/-- Model of the extension component of `os.path.splitext`: the suffix from
the last dot, except that a leading run of dots yields no extension. -/
def splitextExt (f : PyStr) : PyStr :=
  let lead := f.takeWhile (fun c => c = '.')
  let rest := f.drop lead.length
  if '.' ∈ rest then '.' :: (f.reverse.takeWhile (fun c => c ≠ '.')).reverse else []

/-- Model of Python `str.lower()` (ASCII case fold suffices here). -/
def lowerStr (s : PyStr) : PyStr := s.map Char.toLower

/-- Observable events of one `download_image` call, in program order. -/
inductive Ev
  | gateAcquire
  | markTried (url : PyStr)
  | netRequest (url : PyStr)
  | fileWrite (name : PyStr) (body : PyBytes)
  | gateRelease
deriving DecidableEq

/-- Result of `urllib.request.urlopen(...).read()` for one URL: a body, or
one of the two exception classes named in the source's `except` clause. -/
inductive NetResult
  | ok (body : PyBytes)
  | httpError (code : Nat)
  | urlError (reason : PyStr)
deriving DecidableEq

/-- Python exceptions that escape `download_image` in the embedding. -/
inductive PyExc
  | attributeError
  | nameError
deriving DecidableEq

/-- Outcome of one `download_image` call. -/
inductive DRes
  | earlyReturn
  | fetchFail
  | invalid
  | saved (name : PyStr)
  | exn (e : PyExc)
deriving DecidableEq

/-- Full observable result of one `download_image` call. -/
structure DLOut where
  tracker : DownloadTracker
  res : DRes
  events : List Ev
deriving DecidableEq

/-- Gate events are emitted only when a semaphore was passed
(`if thread_pool:` guards both `acquire` and `release` in the source). -/
def gateEvs (hasPool : Bool) (e : Ev) : List Ev := if hasPool then [e] else []

/-- The part of `download_image` from the `urlopen` result on (source lines
93 to 109), given the already-updated tracker.  Returns the final tracker,
the outcome, and the mid-trace events (file writes).  Two source bugs are
embedded faithfully: the `except` handler reads `err.code`, which
`URLError` lacks (an `AttributeError` escapes), and the duplicate branch's
log message reads the undefined name `image_md5s` (a `NameError` escapes). -/
def dl_body (filename ext : PyStr) (tr1 : DownloadTracker)
    (sniff : PyBytes → Option PyStr) (md5 : PyBytes → PyStr) :
    NetResult → DownloadTracker × DRes × List Ev
  | .httpError _ => (tr1, .fetchFail, [])
  | .urlError _ => (tr1, .exn .attributeError, [])
  | .ok body =>
    match sniff body with
    | none => (tr1, .invalid, [])
    | some _ =>
      let h := md5 body
      match dictLookup tr1.image_md5s h with
      | some _ => (tr1, .exn .nameError, [])
      | none =>
        let savedName := h ++ lowerStr ext
        ({ tr1 with image_md5s := dictInsert tr1.image_md5s h filename },
         .saved savedName, [Ev.fileWrite savedName body])

/-- Embedding of `download_image` (source lines 71 to 112).  `fetch` is the
network oracle, `sniff` models `imghdr.what(None, image)`, `md5` models
`hashlib.md5(image).hexdigest()`.  The event trace records, in program
order: semaphore acquire, insertion of the URL into `tried_urls`, the
`urlopen` call, any file write, and the semaphore release performed by the
`finally` block on every path that reached the `try`. -/
def download_image (hasPool : Bool) (url : PyStr) (tracker : DownloadTracker)
    (fetch : PyStr → NetResult) (sniff : PyBytes → Option PyStr)
    (md5 : PyBytes → PyStr) : DLOut :=
  if url ∈ tracker.tried_urls then ⟨tracker, .earlyReturn, []⟩
  else
    let filename := urlFilename url
    let ext := splitextExt filename
    let tr1 : DownloadTracker :=
      { tracker with tried_urls := setInsert url tracker.tried_urls }
    let out := dl_body filename ext tr1 sniff md5 (fetch url)
    ⟨out.1, out.2.1,
     gateEvs hasPool .gateAcquire
       ++ Ev.markTried url :: Ev.netRequest url :: out.2.2
       ++ gateEvs hasPool .gateRelease⟩

/-- Sequential composition of download attempts over a list of URLs with a
shared tracker (one serialized schedule of the threads spawned by
`fetch_images`). -/
def run_downloads (hasPool : Bool) (urls : List PyStr) (tracker : DownloadTracker)
    (fetch : PyStr → NetResult) (sniff : PyBytes → Option PyStr)
    (md5 : PyBytes → PyStr) : DownloadTracker :=
  urls.foldl (fun tr u => (download_image hasPool u tr fetch sniff md5).tracker) tracker

/-- UTF-8 bytes of a character, as produced by Python's `str.encode`. -/
def utf8Bytes (c : Char) : PyBytes :=
  let n := c.toNat
  if n < 0x80 then [n]
  else if n < 0x800 then [0xC0 + n / 0x40, 0x80 + n % 0x40]
  else if n < 0x10000 then
    [0xE0 + n / 0x1000, 0x80 + (n / 0x40) % 0x40, 0x80 + n % 0x40]
  else
    [0xF0 + n / 0x40000, 0x80 + (n / 0x1000) % 0x40, 0x80 + (n / 0x40) % 0x40,
     0x80 + n % 0x40]

/-- Uppercase hex digit of a value below 16. -/
def hexDigit (n : Nat) : Char :=
  if n < 10 then Char.ofNat (48 + n) else Char.ofNat (55 + n)

/-- Percent-encoding of one byte, uppercase hex as in `urllib.parse.quote`. -/
def pctEncodeByte (b : Nat) : PyStr := ['%', hexDigit (b / 16), hexDigit (b % 16)]

/-- Characters `urllib.parse.quote_plus` leaves unencoded. -/
def isSafeChar (c : Char) : Bool :=
  (c.isAlphanum && c.toNat < 0x80) || c = '_' || c = '.' || c = '-' || c = '~'

/-- Model of `urllib.parse.quote_plus`: spaces become `+`, safe characters
pass through, everything else is percent-encoded bytewise. -/
def quote_plus (s : PyStr) : PyStr :=
  (s.map (fun c =>
    if c = ' ' then ['+']
    else if isSafeChar c then [c]
    else ((utf8Bytes c).map pctEncodeByte).flatten)).flatten

/-- Python string interpolation of an optional string: `str.format` renders
`None` as the four characters `None`. -/
def pyFormatOpt : Option PyStr → PyStr
  | none => ("None".toList)
  | some s => s

/-- Embedding of `query_url` (source lines 115 to 128): the Bing search URL
built by `str.format` on the template. -/
def query_url (query : PyStr) (image_index : Nat) (adult_filter : Bool)
    (filters : Option PyStr) : PyStr :=
  ("https://www.bing.com/images/async?q=".toList) ++ quote_plus query
    ++ ("&first=".toList) ++ (toString image_index).toList
    ++ ("&count=35&adlt=".toList)
    ++ (if adult_filter then [] else ("off".toList))
    ++ ("&qft=".toList) ++ pyFormatOpt filters

/-- Model of the `--filters` argparse default: the flag is optional and has
no `default`, so an invocation without it yields Python `None`. -/
def args_filters_default : Option PyStr := none

/-- The tracker constructed by `fetch_images` (source line 157): a fresh
`DownloadTracker()` — the on-disk state is never consulted. -/
def fetch_images_tracker : DownloadTracker := DownloadTracker.init

/-- Value of the loop variable `i` after `for i, url in enumerate(image_urls)`
(source lines 173 to 181): the last index if the page is nonempty, otherwise
whatever `i` held before — `none` models an unbound `i` (first iteration),
which makes the subsequent `image_index += i` raise `NameError`. -/
def loop_i_after (numUrls : Nat) (i0 : Option Nat) : Option Nat :=
  if numUrls = 0 then i0 else some (numUrls - 1)

/-- Embedding of the offset update `image_index += i` (source line 182). -/
def advance_image_index (image_index : Nat) (numUrls : Nat) (i0 : Option Nat) :
    Option Nat :=
  match loop_i_after numUrls i0 with
  | none => none
  | some i => some (image_index + i)

/-- State of one downloader thread with respect to the gate: not yet at the
semaphore, inside network I/O, or finished. -/
inductive TaskSt
  | idle
  | busy
  | done
deriving DecidableEq

/-- Decides whether a task is currently inside network I/O. -/
def isBusy : TaskSt → Bool
  | .busy => true
  | _ => false

/-- Number of tasks currently inside network I/O. -/
def busyCount (ts : List TaskSt) : Nat := ts.countP isBusy

/-- State of the `threading.BoundedSemaphore` together with all task states. -/
structure GateState where
  sem : Nat
  tasks : List TaskSt
deriving DecidableEq

/-- Interleaving semantics of the gate: a task enters network I/O only by
acquiring a free semaphore slot, and returns its slot when it leaves. -/
inductive GateStep : GateState → GateState → Prop
  | acq (s : GateState) (i : Nat) (h : s.tasks.get? i = some .idle) (hs : 0 < s.sem) :
      GateStep s ⟨s.sem - 1, s.tasks.set i .busy⟩
  | rel (s : GateState) (i : Nat) (h : s.tasks.get? i = some .busy) :
      GateStep s ⟨s.sem + 1, s.tasks.set i .done⟩

/-- States reachable from `n` pending tasks and a gate of size `k`. -/
def GateReach (k n : Nat) (s : GateState) : Prop :=
  Relation.ReflTransGen GateStep ⟨k, List.replicate n .idle⟩ s

/-! Helper lemmas shared by several claim proofs. -/

theorem mem_setInsert_self (u : PyStr) (s : List PyStr) : u ∈ setInsert u s := by
  unfold setInsert
  split
  · assumption
  · exact List.mem_cons_self u s

theorem mem_setInsert_of_mem {u w : PyStr} {s : List PyStr} (h : u ∈ s) :
    u ∈ setInsert w s := by
  unfold setInsert
  split
  · exact h
  · exact List.mem_cons_of_mem w h

theorem dl_body_tried (filename ext : PyStr) (tr1 : DownloadTracker)
    (sniff : PyBytes → Option PyStr) (md5 : PyBytes → PyStr) (r : NetResult) :
    (dl_body filename ext tr1 sniff md5 r).1.tried_urls = tr1.tried_urls := by
  cases r with
  | ok body =>
    cases hs : sniff body with
    | none => simp [dl_body, hs]
    | some w =>
      cases hl : dictLookup tr1.image_md5s (md5 body) with
      | none => simp [dl_body, hs, hl]
      | some v => simp [dl_body, hs, hl]
  | httpError c => rfl
  | urlError s => rfl

theorem dl_body_evs (filename ext : PyStr) (tr1 : DownloadTracker)
    (sniff : PyBytes → Option PyStr) (md5 : PyBytes → PyStr) (r : NetResult) :
    (dl_body filename ext tr1 sniff md5 r).2.2 = []
      ∨ ∃ nm b, (dl_body filename ext tr1 sniff md5 r).2.2 = [Ev.fileWrite nm b] := by
  cases r with
  | ok body =>
    cases hs : sniff body with
    | none => left; simp [dl_body, hs]
    | some w =>
      cases hl : dictLookup tr1.image_md5s (md5 body) with
      | none =>
        right
        exact ⟨md5 body ++ lowerStr ext, body, by simp [dl_body, hs, hl]⟩
      | some v => left; simp [dl_body, hs, hl]
  | httpError c => left; rfl
  | urlError s => left; rfl

/-! Claim theorems. -/

/-- C4: the run coordinator is claimed to advance the page offset by exactly
the number of URLs returned for the page.  The code instead adds the final
`enumerate` index, which is one less than the page length: after a page of 35
URLs at offset 0 the offset is 34, not 35; a one-URL page makes no progress
at all; and an empty first page leaves `i` unbound (a `NameError`). -/
theorem offset_advance_off_by_one :
    advance_image_index 0 35 none = some 34
      ∧ advance_image_index 0 35 none ≠ some 35
      ∧ advance_image_index 7 1 none = some 7
      ∧ advance_image_index 0 0 none = none := by
  decide

/-- C5: network errors are claimed never to escape `download_image`.  The
`except` clause does catch `HTTPError` (converted to a logged failure), but
for a plain `URLError` the handler itself evaluates `err.code`, an attribute
`URLError` does not have, so an `AttributeError` escapes to the caller. -/
theorem urlerror_handler_raises :
    (download_image true ("http://a/x.jpg".toList) DownloadTracker.init
        (fun _ => .urlError ("connection refused".toList))
        (fun _ => none) (fun _ => [])).res = .exn .attributeError
      ∧ (download_image true ("http://a/x.jpg".toList) DownloadTracker.init
          (fun _ => .httpError 404) (fun _ => none) (fun _ => [])).res = .fetchFail := by
  exact ⟨rfl, rfl⟩

/-- C2: the tracker is claimed to be loaded from disk at process start, so a
second run would skip recorded URLs.  The read helpers do map a missing file
to an empty collection, and the persisted file does record the URL; but
`fetch_images` constructs a fresh empty `DownloadTracker()` and never loads,
so the very URL recorded on disk is fetched again over the network. -/
theorem persisted_state_ignored_on_start :
    get_tried_urls none = []
      ∧ get_image_md5s none = some []
      ∧ get_tried_urls (some ("http://h/a.jpg".toList)) = [("http://h/a.jpg".toList)]
      ∧ fetch_images_tracker.tried_urls = []
      ∧ Ev.netRequest ("http://h/a.jpg".toList)
          ∈ (download_image true ("http://h/a.jpg".toList) fetch_images_tracker
              (fun _ => .ok [1]) (fun _ => some ("jpeg".toList))
              (fun _ => ("d4".toList))).events := by
  refine ⟨rfl, rfl, by decide, rfl, ?_⟩
  decide

/-- C7: a body whose hash is already recorded is claimed to yield a clean
`skipped-duplicate` outcome.  Nothing is written and the tracker keeps the
first filename, but the duplicate branch's log message reads the undefined
name `image_md5s`, so the second call dies with a `NameError` instead of
returning. -/
theorem duplicate_branch_raises_nameerror :
    (download_image true ("http://a/x.jpg".toList) DownloadTracker.init
        (fun _ => .ok [7, 7]) (fun _ => some ("jpeg".toList))
        (fun _ => ("aa".toList))).res = .saved ("aa.jpg".toList)
      ∧ (download_image true ("http://b/y.png".toList)
          (download_image true ("http://a/x.jpg".toList) DownloadTracker.init
            (fun _ => .ok [7, 7]) (fun _ => some ("jpeg".toList))
            (fun _ => ("aa".toList))).tracker
          (fun _ => .ok [7, 7]) (fun _ => some ("jpeg".toList))
          (fun _ => ("aa".toList))).res = .exn .nameError
      ∧ (download_image true ("http://b/y.png".toList)
          (download_image true ("http://a/x.jpg".toList) DownloadTracker.init
            (fun _ => .ok [7, 7]) (fun _ => some ("jpeg".toList))
            (fun _ => ("aa".toList))).tracker
          (fun _ => .ok [7, 7]) (fun _ => some ("jpeg".toList))
          (fun _ => ("aa".toList))).events
        = [Ev.gateAcquire, Ev.markTried ("http://b/y.png".toList),
           Ev.netRequest ("http://b/y.png".toList), Ev.gateRelease]
      ∧ dictLookup (download_image true ("http://b/y.png".toList)
          (download_image true ("http://a/x.jpg".toList) DownloadTracker.init
            (fun _ => .ok [7, 7]) (fun _ => some ("jpeg".toList))
            (fun _ => ("aa".toList))).tracker
          (fun _ => .ok [7, 7]) (fun _ => some ("jpeg".toList))
          (fun _ => ("aa".toList))).tracker.image_md5s ("aa".toList)
        = some ("x.jpg".toList) := by
  refine ⟨rfl, rfl, ?_, rfl⟩
  decide

/-- C10: invoked without the `--filters` flag, argparse leaves the value as
Python `None`, and `str.format` renders it literally, so the search request
URL ends with the text `qft=None`. -/
theorem query_url_default_filters_suffix :
    ∀ (q : PyStr) (i : Nat) (a : Bool),
      ("qft=None".toList) <:+ query_url q i a args_filters_default := by
  intro q i a
  have h1 : ("qft=None".toList) <:+ (("&qft=".toList) ++ pyFormatOpt args_filters_default) := by
    decide
  have step : ∀ (p : PyStr) {x y : PyStr}, x <:+ y → x <:+ p ++ y :=
    fun p _ _ h => h.trans (List.suffix_append p _)
  simp only [query_url, List.append_assoc]
  exact step _ (step _ (step _ (step _ (step _ (step _ h1)))))

theorem download_image_mem_tried (hasPool : Bool) (url : PyStr)
    (tracker : DownloadTracker) (fetch : PyStr → NetResult)
    (sniff : PyBytes → Option PyStr) (md5 : PyBytes → PyStr) :
    url ∈ (download_image hasPool url tracker fetch sniff md5).tracker.tried_urls := by
  unfold download_image
  split
  · assumption
  · have h := dl_body_tried (urlFilename url) (splitextExt (urlFilename url))
      { tracker with tried_urls := setInsert url tracker.tried_urls } sniff md5 (fetch url)
    show url ∈ (dl_body _ _ _ _ _ _).1.tried_urls
    rw [h]
    exact mem_setInsert_self url tracker.tried_urls

/-- C1: already-tried URLs are skipped with no events at all (in particular no
network request); a fresh URL is first recorded in `tried_urls` and only then
fetched (the two events occur in that order in the trace); and after any call
the URL is in `tried_urls`, so a repeat call performs no work — a URL present
in `tried_urls` is never fetched again in the same run. -/
theorem tried_urls_skip_and_mark_before_fetch (hasPool : Bool) (url : PyStr)
    (tracker : DownloadTracker) (fetch : PyStr → NetResult)
    (sniff : PyBytes → Option PyStr) (md5 : PyBytes → PyStr) :
    (url ∈ tracker.tried_urls →
        download_image hasPool url tracker fetch sniff md5
          = ⟨tracker, .earlyReturn, []⟩)
      ∧ (url ∉ tracker.tried_urls →
          [Ev.markTried url, Ev.netRequest url].Sublist
            (download_image hasPool url tracker fetch sniff md5).events)
      ∧ (download_image hasPool url
          (download_image hasPool url tracker fetch sniff md5).tracker
          fetch sniff md5).events = [] := by
  refine ⟨?_, ?_, ?_⟩
  · intro hmem
    simp [download_image, hmem]
  · intro hmem
    unfold download_image
    rw [if_neg hmem]
    show List.Sublist _ (gateEvs hasPool .gateAcquire
      ++ Ev.markTried url :: Ev.netRequest url :: (dl_body _ _ _ _ _ _).2.2
      ++ gateEvs hasPool .gateRelease)
    have h2 : [Ev.markTried url, Ev.netRequest url].Sublist
        (Ev.markTried url :: Ev.netRequest url :: (dl_body (urlFilename url)
          (splitextExt (urlFilename url))
          { tracker with tried_urls := setInsert url tracker.tried_urls }
          sniff md5 (fetch url)).2.2) :=
      List.Sublist.cons₂ _ (List.Sublist.cons₂ _ (List.nil_sublist _))
    have h3 := h2.trans (List.sublist_append_left
      (Ev.markTried url :: Ev.netRequest url :: (dl_body (urlFilename url)
        (splitextExt (urlFilename url))
        { tracker with tried_urls := setInsert url tracker.tried_urls }
        sniff md5 (fetch url)).2.2) (gateEvs hasPool .gateRelease))
    have h4 := h3.trans (List.sublist_append_right (gateEvs hasPool .gateAcquire) _)
    rw [← List.append_assoc] at h4
    exact h4
  · have hmem := download_image_mem_tried hasPool url tracker fetch sniff md5
    generalize hT : (download_image hasPool url tracker fetch sniff md5).tracker = T at hmem
    unfold download_image
    rw [if_pos hmem]

/-- Witness for C1 at a concrete input: the URL is new, so the trace contains
the mark-then-fetch pair in order. -/
theorem tried_urls_skip_and_mark_before_fetch_witness :
    [Ev.markTried ("http://h/a.jpg".toList), Ev.netRequest ("http://h/a.jpg".toList)].Sublist
      (download_image true ("http://h/a.jpg".toList) DownloadTracker.init
        (fun _ => .ok [1]) (fun _ => some ("jpeg".toList)) (fun _ => ("d4".toList))).events
      ∧ (download_image true ("http://h/a.jpg".toList)
          (download_image true ("http://h/a.jpg".toList) DownloadTracker.init
            (fun _ => .ok [1]) (fun _ => some ("jpeg".toList))
            (fun _ => ("d4".toList))).tracker
          (fun _ => .ok [1]) (fun _ => some ("jpeg".toList))
          (fun _ => ("d4".toList))).events = [] := by
  refine ⟨?_, ?_⟩
  · exact (tried_urls_skip_and_mark_before_fetch true ("http://h/a.jpg".toList)
      DownloadTracker.init (fun _ => .ok [1]) (fun _ => some ("jpeg".toList))
      (fun _ => ("d4".toList))).2.1 (by decide)
  · exact (tried_urls_skip_and_mark_before_fetch true ("http://h/a.jpg".toList)
      DownloadTracker.init (fun _ => .ok [1]) (fun _ => some ("jpeg".toList))
      (fun _ => ("d4".toList))).2.2

/-- C6: when the fetched body fails the magic-byte sniff, `download_image`
returns the invalid-content outcome, records no hash mapping, and its trace
holds no file write — the decision depends only on the body given to the
sniffing oracle, never on the URL's extension. -/
theorem invalid_content_writes_nothing (hasPool : Bool) (url : PyStr)
    (tracker : DownloadTracker) (fetch : PyStr → NetResult)
    (sniff : PyBytes → Option PyStr) (md5 : PyBytes → PyStr) (body : PyBytes)
    (hmem : url ∉ tracker.tried_urls) (hf : fetch url = .ok body)
    (hs : sniff body = none) :
    (download_image hasPool url tracker fetch sniff md5).res = .invalid
      ∧ (download_image hasPool url tracker fetch sniff md5).tracker.image_md5s
          = tracker.image_md5s
      ∧ (download_image hasPool url tracker fetch sniff md5).events
          = gateEvs hasPool .gateAcquire
            ++ Ev.markTried url :: Ev.netRequest url :: gateEvs hasPool .gateRelease := by
  unfold download_image
  rw [if_neg hmem, hf]
  simp [dl_body, hs]

/-- Witness for C6 at a concrete input: an HTML error page fetched from a
`.jpg` URL is not written and leaves the hash map empty. -/
theorem invalid_content_writes_nothing_witness :
    (download_image true ("http://h/err.jpg".toList) DownloadTracker.init
        (fun _ => .ok [60, 104, 116, 109, 108, 62]) (fun _ => none)
        (fun _ => ("d4".toList))).res = .invalid
      ∧ (download_image true ("http://h/err.jpg".toList) DownloadTracker.init
          (fun _ => .ok [60, 104, 116, 109, 108, 62]) (fun _ => none)
          (fun _ => ("d4".toList))).tracker.image_md5s = DownloadTracker.init.image_md5s
      ∧ (download_image true ("http://h/err.jpg".toList) DownloadTracker.init
          (fun _ => .ok [60, 104, 116, 109, 108, 62]) (fun _ => none)
          (fun _ => ("d4".toList))).events
        = gateEvs true .gateAcquire
          ++ Ev.markTried ("http://h/err.jpg".toList)
            :: Ev.netRequest ("http://h/err.jpg".toList) :: gateEvs true .gateRelease :=
  invalid_content_writes_nothing true ("http://h/err.jpg".toList) DownloadTracker.init
    (fun _ => .ok [60, 104, 116, 109, 108, 62]) (fun _ => none) (fun _ => ("d4".toList))
    [60, 104, 116, 109, 108, 62] (by decide) rfl rfl

theorem dictLookup_dictInsert (d : List (PyStr × PyStr)) (k2 v2 k : PyStr) :
    dictLookup (dictInsert d k2 v2) k
      = if k = k2 then some v2 else dictLookup d k := by
  induction d with
  | nil => simp [dictInsert, dictLookup]
  | cons p rest ih =>
    obtain ⟨k0, v0⟩ := p
    by_cases h2 : k2 = k0
    · subst h2
      by_cases hk : k = k2 <;> simp [dictInsert, dictLookup, hk]
    · by_cases hk : k = k0
      · subst hk
        have : ¬ k = k2 := fun h => h2 h.symm
        simp [dictInsert, dictLookup, h2, this]
      · simp [dictInsert, dictLookup, h2, hk, ih]

theorem dl_body_md5_mono (filename ext : PyStr) (tr1 : DownloadTracker)
    (sniff : PyBytes → Option PyStr) (md5 : PyBytes → PyStr) (r : NetResult)
    (k v : PyStr) (h : dictLookup tr1.image_md5s k = some v) :
    dictLookup (dl_body filename ext tr1 sniff md5 r).1.image_md5s k = some v := by
  cases r with
  | ok body =>
    cases hs : sniff body with
    | none => simpa [dl_body, hs] using h
    | some w =>
      cases hl : dictLookup tr1.image_md5s (md5 body) with
      | none =>
        have hk : k ≠ md5 body := by
          intro he
          rw [he, hl] at h
          exact Option.noConfusion h
        simp [dl_body, hs, hl, dictLookup_dictInsert, hk, h]
      | some v0 => simpa [dl_body, hs, hl] using h
  | httpError c => simpa [dl_body] using h
  | urlError s => simpa [dl_body] using h

theorem download_image_tracker_mono (hasPool : Bool) (url : PyStr)
    (tracker : DownloadTracker) (fetch : PyStr → NetResult)
    (sniff : PyBytes → Option PyStr) (md5 : PyBytes → PyStr) :
    (∀ u ∈ tracker.tried_urls,
        u ∈ (download_image hasPool url tracker fetch sniff md5).tracker.tried_urls)
      ∧ (∀ k v, dictLookup tracker.image_md5s k = some v →
          dictLookup (download_image hasPool url tracker fetch sniff md5).tracker.image_md5s k
            = some v) := by
  unfold download_image
  split
  · exact ⟨fun u hu => hu, fun k v hv => hv⟩
  · constructor
    · intro u hu
      show u ∈ (dl_body _ _ _ _ _ _).1.tried_urls
      rw [dl_body_tried]
      exact mem_setInsert_of_mem hu
    · intro k v hv
      show dictLookup (dl_body _ _ _ _ _ _).1.image_md5s k = some v
      exact dl_body_md5_mono _ _ _ _ _ _ _ _ hv

/-- C9: tracker state only grows.  Over any sequence of download attempts,
every URL in `tried_urls` stays there and every recorded hash-to-filename
binding is preserved: no operation of the embedded downloader removes an
entry from either collection. -/
theorem tracker_state_only_grows (hasPool : Bool) (urls : List PyStr)
    (tracker : DownloadTracker) (fetch : PyStr → NetResult)
    (sniff : PyBytes → Option PyStr) (md5 : PyBytes → PyStr) :
    (∀ u ∈ tracker.tried_urls,
        u ∈ (run_downloads hasPool urls tracker fetch sniff md5).tried_urls)
      ∧ (∀ k v, dictLookup tracker.image_md5s k = some v →
          dictLookup (run_downloads hasPool urls tracker fetch sniff md5).image_md5s k
            = some v) := by
  induction urls generalizing tracker with
  | nil => exact ⟨fun u hu => hu, fun k v hv => hv⟩
  | cons w ws ih =>
    have hstep := download_image_tracker_mono hasPool w tracker fetch sniff md5
    have hrest := ih (download_image hasPool w tracker fetch sniff md5).tracker
    constructor
    · intro u hu
      exact hrest.1 u (hstep.1 u hu)
    · intro k v hv
      exact hrest.2 k v (hstep.2 k v hv)

/-- Witness for C9 at a concrete input: a pre-recorded URL and hash binding
survive a run over two fresh URLs. -/
theorem tracker_state_only_grows_witness :
    ("http://old/o.png".toList)
        ∈ (run_downloads true [("http://h/a.jpg".toList), ("http://h/b.jpg".toList)]
            ⟨[("http://old/o.png".toList)], [(("aa".toList), ("o.png".toList))], 0⟩
            (fun _ => .ok [1]) (fun _ => some ("jpeg".toList))
            (fun _ => ("d4".toList))).tried_urls
      ∧ dictLookup (run_downloads true [("http://h/a.jpg".toList), ("http://h/b.jpg".toList)]
            ⟨[("http://old/o.png".toList)], [(("aa".toList), ("o.png".toList))], 0⟩
            (fun _ => .ok [1]) (fun _ => some ("jpeg".toList))
            (fun _ => ("d4".toList))).image_md5s ("aa".toList)
          = some ("o.png".toList) := by
  refine ⟨?_, ?_⟩
  · exact (tracker_state_only_grows true [("http://h/a.jpg".toList), ("http://h/b.jpg".toList)]
      ⟨[("http://old/o.png".toList)], [(("aa".toList), ("o.png".toList))], 0⟩
      (fun _ => .ok [1]) (fun _ => some ("jpeg".toList)) (fun _ => ("d4".toList))).1
      ("http://old/o.png".toList) (by decide)
  · exact (tracker_state_only_grows true [("http://h/a.jpg".toList), ("http://h/b.jpg".toList)]
      ⟨[("http://old/o.png".toList)], [(("aa".toList), ("o.png".toList))], 0⟩
      (fun _ => .ok [1]) (fun _ => some ("jpeg".toList)) (fun _ => ("d4".toList))).2
      ("aa".toList) ("o.png".toList) (by decide)

theorem countP_isBusy_set (l : List TaskSt) (i : Nat) (a b : TaskSt)
    (h : l.get? i = some a) :
    (l.set i b).countP isBusy + (if isBusy a then 1 else 0)
      = l.countP isBusy + (if isBusy b then 1 else 0) := by
  induction l generalizing i with
  | nil => simp at h
  | cons x xs ih =>
    cases i with
    | zero =>
      simp only [List.get?] at h
      cases h
      simp [List.set, List.countP_cons]
      omega
    | succ j =>
      simp only [List.get?] at h
      have := ih j h
      simp [List.set, List.countP_cons]
      omega

theorem gate_invariant (k n : Nat) (s : GateState) (h : GateReach k n s) :
    s.sem + busyCount s.tasks = k := by
  induction h with
  | refl =>
    have : busyCount (List.replicate n TaskSt.idle) = 0 := by
      induction n with
      | zero => rfl
      | succ m ihm =>
        simp only [busyCount, List.replicate, List.countP_cons, isBusy] at ihm ⊢
        simpa using ihm
    simp [this]
  | @tail s s2 hr hstep ih =>
    cases hstep with
    | acq i hi hs =>
      have hc := countP_isBusy_set s.tasks i .idle .busy hi
      simp [isBusy] at hc
      simp only [busyCount] at ih ⊢
      omega
    | rel i hi =>
      have hc := countP_isBusy_set s.tasks i .busy .done hi
      simp [isBusy] at hc
      simp only [busyCount] at ih ⊢
      omega

/-- C8: in the gate model of `threading.BoundedSemaphore`, at most `k` tasks
are inside network I/O in any reachable state; and the embedded
`download_image` trace of a dispatched URL is exactly one acquire, then the
mark/fetch/write work containing the network request, then one release —
the release happens on every path (the `finally` block), so a slot is always
returned. -/
theorem gate_bound_and_bracketing :
    (∀ (k n : Nat) (s : GateState), 1 ≤ k → GateReach k n s →
        busyCount s.tasks ≤ k)
      ∧ (∀ (url : PyStr) (tracker : DownloadTracker) (fetch : PyStr → NetResult)
          (sniff : PyBytes → Option PyStr) (md5 : PyBytes → PyStr),
          url ∉ tracker.tried_urls →
          ∃ mid, (download_image true url tracker fetch sniff md5).events
              = Ev.gateAcquire :: (mid ++ [Ev.gateRelease])
            ∧ Ev.netRequest url ∈ mid
            ∧ Ev.gateAcquire ∉ mid ∧ Ev.gateRelease ∉ mid) := by
  constructor
  · intro k n s _ h
    have := gate_invariant k n s h
    omega
  · intro url tracker fetch sniff md5 hmem
    refine ⟨Ev.markTried url :: Ev.netRequest url :: (dl_body (urlFilename url)
      (splitextExt (urlFilename url))
      { tracker with tried_urls := setInsert url tracker.tried_urls }
      sniff md5 (fetch url)).2.2, ?_, ?_, ?_, ?_⟩
    · unfold download_image
      rw [if_neg hmem]
      show gateEvs true .gateAcquire ++ _ ++ gateEvs true .gateRelease = _
      simp [gateEvs]
    · exact List.mem_cons_of_mem _ (List.mem_cons_self _ _)
    · intro hc
      rcases dl_body_evs (urlFilename url) (splitextExt (urlFilename url))
        { tracker with tried_urls := setInsert url tracker.tried_urls }
        sniff md5 (fetch url) with he | ⟨nm, b, he⟩ <;>
        rw [he] at hc <;> simp at hc
    · intro hc
      rcases dl_body_evs (urlFilename url) (splitextExt (urlFilename url))
        { tracker with tried_urls := setInsert url tracker.tried_urls }
        sniff md5 (fetch url) with he | ⟨nm, b, he⟩ <;>
        rw [he] at hc <;> simp at hc

/-- Witness for C8 at a concrete input: the initial one-task state respects
the bound of a size-one gate, and a concrete fresh download is bracketed by
one acquire and one release around its network request. -/
theorem gate_bound_and_bracketing_witness :
    busyCount (GateState.mk 1 (List.replicate 1 TaskSt.idle)).tasks ≤ 1
      ∧ ∃ mid, (download_image true ("http://h/a.jpg".toList) DownloadTracker.init
            (fun _ => .ok [1]) (fun _ => some ("jpeg".toList))
            (fun _ => ("d4".toList))).events
          = Ev.gateAcquire :: (mid ++ [Ev.gateRelease])
        ∧ Ev.netRequest ("http://h/a.jpg".toList) ∈ mid
        ∧ Ev.gateAcquire ∉ mid ∧ Ev.gateRelease ∉ mid := by
  refine ⟨?_, ?_⟩
  · exact gate_bound_and_bracketing.1 1 1 ⟨1, List.replicate 1 TaskSt.idle⟩
      (by decide) Relation.ReflTransGen.refl
  · exact gate_bound_and_bracketing.2 ("http://h/a.jpg".toList) DownloadTracker.init
      (fun _ => .ok [1]) (fun _ => some ("jpeg".toList)) (fun _ => ("d4".toList))
      (by decide)

theorem splitChar_ne_nil (c : Char) (l : PyStr) : splitChar c l ≠ [] := by
  cases l with
  | nil => simp [splitChar]
  | cons a as =>
    unfold splitChar
    cases h : splitChar c as with
    | nil => simp
    | cons r rs =>
      by_cases hac : a = c <;> simp [hac]

theorem splitChar_no_sep {c : Char} {l : PyStr} (h : c ∉ l) : splitChar c l = [l] := by
  induction l with
  | nil => rfl
  | cons a as ih =>
    have hac : a ≠ c := fun he => h (he ▸ List.mem_cons_self a as)
    have has : c ∉ as := fun hm => h (List.mem_cons_of_mem a hm)
    unfold splitChar
    rw [ih has]
    simp [hac]

theorem splitChar_append_sep {c : Char} {x : PyStr} (l : PyStr) (h : c ∉ x) :
    splitChar c (x ++ c :: l) = x :: splitChar c l := by
  induction x with
  | nil =>
    show splitChar c (c :: l) = [] :: splitChar c l
    obtain ⟨r, rs, hs⟩ : ∃ r rs, splitChar c l = r :: rs := by
      cases hs : splitChar c l with
      | nil => exact absurd hs (splitChar_ne_nil c l)
      | cons r rs => exact ⟨r, rs, rfl⟩
    rw [hs]
    simp [splitChar, hs]
  | cons a as ih =>
    have hac : a ≠ c := fun he => h (he ▸ List.mem_cons_self a as)
    have has : c ∉ as := fun hm => h (List.mem_cons_of_mem a hm)
    show splitChar c (a :: (as ++ c :: l)) = (a :: as) :: splitChar c l
    simp only [splitChar, ih has]
    simp [hac]

theorem splitChar_joinNL {ls : List PyStr} (hne : ls ≠ [])
    (h : ∀ l ∈ ls, '\n' ∉ l) : splitChar '\n' (joinNL ls) = ls := by
  induction ls with
  | nil => exact absurd rfl hne
  | cons x xs ih =>
    cases xs with
    | nil =>
      show splitChar '\n' (joinNL [x]) = [x]
      exact splitChar_no_sep (h x (List.mem_cons_self x []))
    | cons y ys =>
      show splitChar '\n' (x ++ '\n' :: joinNL (y :: ys)) = x :: (y :: ys)
      rw [splitChar_append_sep _ (h x (List.mem_cons_self x (y :: ys)))]
      rw [ih (by simp) (fun l hl => h l (List.mem_cons_of_mem x hl))]

theorem pyLines_joinNL {ls : List PyStr} (h : ∀ l ∈ ls, l ≠ [] ∧ '\n' ∉ l) :
    pyLines (joinNL ls) = ls := by
  rcases List.eq_nil_or_concat ls with he | ⟨front, a, he⟩
  · subst he; rfl
  · rw [List.concat_eq_append] at he
    have hne : ls ≠ [] := by rw [he]; simp
    have hsplit := splitChar_joinNL hne (fun l hl => (h l hl).2)
    have ha : a ∈ ls := by rw [he]; simp
    have hane : a ≠ [] := (h a ha).1
    have hlast : ls.getLast? = some a := by rw [he]; exact List.getLast?_concat _
    unfold pyLines
    rw [hsplit, hlast]
    simp [hane]

theorem splitChar_listJoin_trailing {ls : List PyStr}
    (h : ∀ l ∈ ls, '\n' ∉ l) :
    splitChar '\n' (listJoin (ls.map (fun l => l ++ ['\n']))) = ls ++ [[]] := by
  induction ls with
  | nil => rfl
  | cons x xs ih =>
    show splitChar '\n' ((x ++ ['\n']) ++ listJoin (xs.map (fun l => l ++ ['\n'])))
      = (x :: xs) ++ [[]]
    have : (x ++ ['\n']) ++ listJoin (xs.map (fun l => l ++ ['\n']))
        = x ++ '\n' :: listJoin (xs.map (fun l => l ++ ['\n'])) := by
      simp
    rw [this, splitChar_append_sep _ (h x (List.mem_cons_self x xs))]
    rw [ih (fun l hl => h l (List.mem_cons_of_mem x hl))]
    rfl

theorem pyLines_listJoin_trailing {ls : List PyStr}
    (h : ∀ l ∈ ls, '\n' ∉ l) :
    pyLines (listJoin (ls.map (fun l => l ++ ['\n']))) = ls := by
  unfold pyLines
  rw [splitChar_listJoin_trailing h, List.getLast?_concat]
  simp

theorem dictInsert_of_lookup_none {d : List (PyStr × PyStr)} {k : PyStr}
    (h : dictLookup d k = none) (v : PyStr) : dictInsert d k v = d ++ [(k, v)] := by
  induction d with
  | nil => rfl
  | cons p rest ih =>
    obtain ⟨k0, v0⟩ := p
    unfold dictLookup at h
    unfold dictInsert
    by_cases hk : k = k0
    · rw [if_pos hk] at h; exact absurd h (by simp)
    · rw [if_neg hk] at h
      rw [if_neg hk, ih h]
      simp

theorem dictLookup_append_single_none {d : List (PyStr × PyStr)} {k k1 : PyStr}
    (h : dictLookup d k = none) (hne : k ≠ k1) (v1 : PyStr) :
    dictLookup (d ++ [(k1, v1)]) k = none := by
  induction d with
  | nil => simpa [dictLookup] using hne
  | cons p rest ih =>
    obtain ⟨k0, v0⟩ := p
    simp only [dictLookup, List.cons_append] at h ⊢
    by_cases hk : k = k0
    · rw [if_pos hk] at h; exact absurd h (by simp)
    · rw [if_neg hk] at h ⊢
      exact ih h

theorem md5_parse_fold {wf : (PyStr × PyStr) → Prop}
    (hwf : ∀ p, wf p → parseMd5Line (p.1 ++ '\t' :: p.2) = some p) :
    ∀ (d acc : List (PyStr × PyStr)), (∀ p ∈ d, wf p) →
      (d.map Prod.fst).Nodup → (∀ p ∈ d, dictLookup acc p.1 = none) →
      parseMd5Lines acc (d.map (fun p => p.1 ++ '\t' :: p.2)) = some (acc ++ d) := by
  intro d
  induction d with
  | nil => intro acc _ _ _; simp [parseMd5Lines]
  | cons p rest ih =>
    intro acc hwfd hnd hacc
    obtain ⟨k, v⟩ := p
    have hp := hwf ⟨k, v⟩ (hwfd ⟨k, v⟩ (List.mem_cons_self _ _))
    have hnone : dictLookup acc k = none := hacc ⟨k, v⟩ (List.mem_cons_self _ _)
    have hstep : dictInsert acc k v = acc ++ [(k, v)] := dictInsert_of_lookup_none hnone v
    show parseMd5Lines acc ((k ++ '\t' :: v) :: rest.map (fun p => p.1 ++ '\t' :: p.2))
      = some (acc ++ ⟨k, v⟩ :: rest)
    simp only [parseMd5Lines, hp, hstep]
    have hrest : ∀ q ∈ rest, dictLookup (acc ++ [(k, v)]) q.1 = none := by
      intro q hq
      have hq1 : dictLookup acc q.1 = none := hacc q (List.mem_cons_of_mem _ hq)
      have hqk : q.1 ≠ k := by
        intro he
        have : k ∈ rest.map Prod.fst := by
          rw [← he]; exact List.mem_map_of_mem Prod.fst hq
        simp only [List.map_cons, List.nodup_cons] at hnd
        exact hnd.1 (he ▸ this)
      exact dictLookup_append_single_none hq1 hqk v
    have hnd2 : (rest.map Prod.fst).Nodup := by
      simp only [List.map_cons, List.nodup_cons] at hnd
      exact hnd.2
    rw [ih (acc ++ [(k, v)]) (fun q hq => hwfd q (List.mem_cons_of_mem _ hq)) hnd2 hrest]
    simp

theorem get_tried_urls_joinNL {l : List PyStr}
    (hwf : ∀ u ∈ l, u ≠ [] ∧ '\n' ∉ u ∧ pyStrip u = u) :
    get_tried_urls (some (joinNL l)) = l := by
  show (pyLines (joinNL l)).map pyStrip = l
  rw [pyLines_joinNL (fun u hu => ⟨(hwf u hu).1, (hwf u hu).2.1⟩)]
  calc l.map pyStrip = l.map id := List.map_congr_left (fun u hu => (hwf u hu).2.2)
    _ = l := List.map_id l

/-- C3: persisting a tracker and loading the two artifacts back reproduces the
same `tried_urls` set and the same `image_md5s` dict, for URLs and filenames
free of the delimiter characters the format itself uses (newlines, tabs,
surrounding whitespace, the empty string); parsing depends only on the set of
serialized lines, not on their order; and serialization does emit the URLs in
sorted order. -/
theorem log_load_roundtrip :
    (∀ t : DownloadTracker,
        (∀ u ∈ t.tried_urls, u ≠ [] ∧ '\n' ∉ u ∧ pyStrip u = u) →
        ∀ u, u ∈ get_tried_urls (some (t.log).1) ↔ u ∈ t.tried_urls)
      ∧ (∀ l1 l2 : List PyStr,
          (∀ u ∈ l1, u ≠ [] ∧ '\n' ∉ u ∧ pyStrip u = u) → l1.Perm l2 →
          (get_tried_urls (some (joinNL l1))).Perm (get_tried_urls (some (joinNL l2))))
      ∧ (∀ t : DownloadTracker,
          (∀ p ∈ t.image_md5s,
            '\t' ∉ p.1 ∧ '\n' ∉ p.1 ∧ '\t' ∉ p.2 ∧ '\n' ∉ p.2
              ∧ pyStrip (p.1 ++ '\t' :: p.2) = p.1 ++ '\t' :: p.2) →
          (t.image_md5s.map Prod.fst).Nodup →
          get_image_md5s (some (t.log).2) = some t.image_md5s)
      ∧ (∀ t : DownloadTracker,
          ∃ ls, List.Sorted (· ≤ ·) ls ∧ (t.log).1 = joinNL ls) := by
  refine ⟨?_, ?_, ?_, ?_⟩
  · intro t hwf u
    have hperm := List.perm_insertionSort (· ≤ ·) t.tried_urls
    have hwf2 : ∀ w ∈ List.insertionSort (· ≤ ·) t.tried_urls,
        w ≠ [] ∧ '\n' ∉ w ∧ pyStrip w = w :=
      fun w hw => hwf w (hperm.mem_iff.mp hw)
    show u ∈ get_tried_urls (some (joinNL (List.insertionSort (· ≤ ·) t.tried_urls)))
      ↔ u ∈ t.tried_urls
    rw [get_tried_urls_joinNL hwf2]
    exact hperm.mem_iff
  · intro l1 l2 hwf hperm
    have hwf2 : ∀ u ∈ l2, u ≠ [] ∧ '\n' ∉ u ∧ pyStrip u = u :=
      fun u hu => hwf u (hperm.mem_iff.mpr hu)
    rw [get_tried_urls_joinNL hwf, get_tried_urls_joinNL hwf2]
    exact hperm
  · intro t hwf hnd
    have hmap : t.image_md5s.map (fun p => p.1 ++ '\t' :: (p.2 ++ ['\n']))
        = (t.image_md5s.map (fun p => p.1 ++ '\t' :: p.2)).map (fun l => l ++ ['\n']) := by
      rw [List.map_map]
      exact List.map_congr_left (fun p _ => by simp)
    show get_image_md5s
        (some (listJoin (t.image_md5s.map (fun p => p.1 ++ '\t' :: (p.2 ++ ['\n'])))))
      = some t.image_md5s
    rw [hmap]
    show parseMd5Lines []
        (pyLines (listJoin ((t.image_md5s.map (fun p => p.1 ++ '\t' :: p.2)).map
          (fun l => l ++ ['\n']))))
      = some t.image_md5s
    have hnl : ∀ l ∈ t.image_md5s.map (fun p => p.1 ++ '\t' :: p.2), '\n' ∉ l := by
      intro l hl
      obtain ⟨p, hp, he⟩ := List.mem_map.mp hl
      obtain ⟨h1, h2, h3, h4, _⟩ := hwf p hp
      rw [← he]
      intro hc
      rcases List.mem_append.mp hc with hc1 | hc2
      · exact h2 hc1
      · rcases List.mem_cons.mp hc2 with hc3 | hc4
        · exact absurd hc3.symm (by decide)
        · exact h4 hc4
    rw [pyLines_listJoin_trailing hnl]
    have := @md5_parse_fold (fun p =>
        '\t' ∉ p.1 ∧ '\n' ∉ p.1 ∧ '\t' ∉ p.2 ∧ '\n' ∉ p.2
          ∧ pyStrip (p.1 ++ '\t' :: p.2) = p.1 ++ '\t' :: p.2)
      (fun p hp => by
        obtain ⟨h1, _, h3, _, h5⟩ := hp
        unfold parseMd5Line
        rw [h5, splitChar_append_sep p.2 h1, splitChar_no_sep h3])
      t.image_md5s [] hwf hnd (fun p _ => rfl)
    rw [this]
    simp
  · intro t
    exact ⟨List.insertionSort (· ≤ ·) t.tried_urls,
      List.sorted_insertionSort (· ≤ ·) t.tried_urls, rfl⟩

/-- Witness for C3 at a concrete tracker: two unsorted URLs and a two-entry
hash dict survive the persist/load round trip, and the two serialization
orders parse to permutations of each other. -/
theorem log_load_roundtrip_witness :
    (("a".toList) ∈ get_tried_urls
        (some ((DownloadTracker.mk [("b".toList), ("a".toList)]
          [(("h1".toList), ("f1.jpg".toList)), (("h2".toList), ("f2.jpg".toList))]
          0).log).1)
      ↔ ("a".toList) ∈ [("b".toList), ("a".toList)])
      ∧ (get_tried_urls (some (joinNL [("b".toList), ("a".toList)]))).Perm
          (get_tried_urls (some (joinNL [("a".toList), ("b".toList)])))
      ∧ get_image_md5s
          (some ((DownloadTracker.mk [("b".toList), ("a".toList)]
            [(("h1".toList), ("f1.jpg".toList)), (("h2".toList), ("f2.jpg".toList))]
            0).log).2)
        = some [(("h1".toList), ("f1.jpg".toList)), (("h2".toList), ("f2.jpg".toList))] := by
  refine ⟨?_, ?_, ?_⟩
  · exact log_load_roundtrip.1
      (DownloadTracker.mk [("b".toList), ("a".toList)]
        [(("h1".toList), ("f1.jpg".toList)), (("h2".toList), ("f2.jpg".toList))] 0)
      (by decide) ("a".toList)
  · exact log_load_roundtrip.2.1 [("b".toList), ("a".toList)] [("a".toList), ("b".toList)]
      (by decide) (by decide)
  · exact log_load_roundtrip.2.2.1
      (DownloadTracker.mk [("b".toList), ("a".toList)]
        [(("h1".toList), ("f1.jpg".toList)), (("h2".toList), ("f2.jpg".toList))] 0)
      (by decide) (by decide)

end Bingscraper
